import Mathlib

/-!
Verification development for the IFNTU schedule Telegram bot
(`bot_global.py`).  The Python source is shallowly embedded: strings are
`List Char` (so that positions are code-point indices, as in Python),
timezone-aware datetimes are an explicit structure carrying the civil
fields plus a UTC offset, Python dicts are association lists with
insert-keeps-position / overwrite-value semantics, and exceptions are
`Option`/`Except`.  Regular-expression operations are embedded as
explicit matchers that reproduce the leftmost / greedy semantics of the
specific patterns appearing in the source.
-/

/-! ## Character classes and basic string (List Char) utilities -/

/-- The uppercase class used throughout the source: `[A-ZА-ЯІЇЄ]`. -/
def isUpperUA (c : Char) : Bool :=
  (0x41 ≤ c.toNat ∧ c.toNat ≤ 0x5A) ∨ (0x410 ≤ c.toNat ∧ c.toNat ≤ 0x42F) ∨
    c.toNat = 0x406 ∨ c.toNat = 0x407 ∨ c.toNat = 0x404

/-- The lowercase class `[a-zа-яіїє]` (without apostrophe). -/
def isLowerUA (c : Char) : Bool :=
  (0x61 ≤ c.toNat ∧ c.toNat ≤ 0x7A) ∨ (0x430 ≤ c.toNat ∧ c.toNat ≤ 0x44F) ∨
    c.toNat = 0x456 ∨ c.toNat = 0x457 ∨ c.toNat = 0x454

/-- The class `[a-zа-яіїє\']` used in the teacher-name patterns:
lowercase letters or an ASCII apostrophe. -/
def isLowerUAApos (c : Char) : Bool :=
  isLowerUA c ∨ c.toNat = 39

def isDigitCh (c : Char) : Bool := 0x30 ≤ c.toNat ∧ c.toNat ≤ 0x39

/-- Python's `\s` / `str.isspace` class (the ASCII members plus the
common Unicode whitespace code points). -/
def isPySpace (c : Char) : Bool :=
  c.toNat = 0x20 ∨ (0x09 ≤ c.toNat ∧ c.toNat ≤ 0x0D) ∨
    (0x1C ≤ c.toNat ∧ c.toNat ≤ 0x1F) ∨ c.toNat = 0x85 ∨ c.toNat = 0xA0 ∨
    c.toNat = 0x1680 ∨ (0x2000 ≤ c.toNat ∧ c.toNat ≤ 0x200A) ∨
    c.toNat = 0x2028 ∨ c.toNat = 0x2029 ∨ c.toNat = 0x202F ∨
    c.toNat = 0x205F ∨ c.toNat = 0x3000

/-- Python `str.lower` restricted to the alphabets the source
manipulates (ASCII and the Cyrillic block, including і/ї/є). -/
def toLowerPy (c : Char) : Char :=
  if 0x41 ≤ c.toNat ∧ c.toNat ≤ 0x5A then Char.ofNat (c.toNat + 0x20)
  else if 0x410 ≤ c.toNat ∧ c.toNat ≤ 0x42F then Char.ofNat (c.toNat + 0x20)
  else if 0x400 ≤ c.toNat ∧ c.toNat ≤ 0x40F then Char.ofNat (c.toNat + 0x50)
  else c

/-- Python slice `s[a:b]` (degenerate bounds give the empty string, as
in Python). -/
def pySlice (s : List Char) (a b : Nat) : List Char := (s.take b).drop a

/-- Python `str.strip()`. -/
def pyStrip (s : List Char) : List Char :=
  ((s.dropWhile isPySpace).reverse.dropWhile isPySpace).reverse

/-- Python `str.split(sep)` for a one-character separator: keeps empty
parts, `"".split(sep) = [""]`. -/
def pySplit (sep : Char) (s : List Char) : List (List Char) :=
  s.foldr
    (fun c acc =>
      match acc with
      | p :: ps => if c = sep then [] :: p :: ps else (c :: p) :: ps
      | [] => [[c]])
    [[]]

/-- Python truthiness of a string: `"" or b` picks `b`. -/
def pyOrStr (a b : List Char) : List Char := if a = [] then b else a

/-- Model of `needle in haystack` for Python strings (substring test). -/
def containsSub (hay needle : List Char) : Bool :=
  decide (∃ i : Fin (hay.length + 1), needle.isPrefixOf (hay.drop i.1))

/-- Case-insensitive prefix test (both sides folded with `toLowerPy`),
as performed by `re.IGNORECASE` on the literal patterns in the source. -/
def isPrefixOfCI (needle hay : List Char) : Bool :=
  (needle.map toLowerPy).isPrefixOf (hay.map toLowerPy)

/-- Python `str.replace(old, '')` for a non-empty `old`: removes every
occurrence, scanning left to right without overlap.  Structural
recursion on a fuel argument; every scanning step consumes at least one
character, so any `fuel ≥ s.length` computes the fixpoint (the `0` case
is unreachable then, see `replAllF_fuel_irrel`). -/
def replAllF (w : List Char) : Nat → List Char → List Char
  | 0, s => s
  | _, [] => []
  | fuel + 1, c :: rest =>
    if w ≠ [] ∧ w.isPrefixOf (c :: rest) then
      replAllF w fuel (List.drop w.length (c :: rest))
    else
      c :: replAllF w fuel rest

def replAll (w s : List Char) : List Char := replAllF w s.length s

/-- Model of `re.sub(pattern, '', s)` for a case-insensitive literal pattern:
removes every occurrence, scanning left to right without overlap. -/
def replAllCIF (w : List Char) : Nat → List Char → List Char
  | 0, s => s
  | _, [] => []
  | fuel + 1, c :: rest =>
    if w ≠ [] ∧ isPrefixOfCI w (c :: rest) then
      replAllCIF w fuel (List.drop w.length (c :: rest))
    else
      c :: replAllCIF w fuel rest

def replAllCI (w s : List Char) : List Char := replAllCIF w s.length s

/-! ## Generic regex scanning

A matcher `m : List Char → Nat → Option Nat` returns, for a start
position, the end position of the (unique, per the greedy semantics of
the concrete pattern) match beginning there.  `findAllM` reproduces
`re.finditer`: scan left to right, and restart after the end of each
reported match.  `searchM` reproduces `re.search` (leftmost match). -/

def findAllFrom (m : List Char → Nat → Option Nat) (s : List Char) :
    Nat → Nat → List (Nat × Nat)
  | _, 0 => []
  | i, fuel + 1 =>
    if i > s.length then []
    else
      match m s i with
      | some e => (i, e) :: findAllFrom m s (max e (i + 1)) fuel
      | none => findAllFrom m s (i + 1) fuel

def findAllM (m : List Char → Nat → Option Nat) (s : List Char) :
    List (Nat × Nat) :=
  findAllFrom m s 0 (s.length + 1)

def searchFrom (m : List Char → Nat → Option Nat) (s : List Char) :
    Nat → Nat → Option (Nat × Nat)
  | _, 0 => none
  | i, fuel + 1 =>
    if i > s.length then none
    else
      match m s i with
      | some e => some (i, e)
      | none => searchFrom m s (i + 1) fuel

def searchM (m : List Char → Nat → Option Nat) (s : List Char) :
    Option (Nat × Nat) :=
  searchFrom m s 0 (s.length + 1)

/-- Model of `re.sub(pattern, '', s)`: remove the text of every non-overlapping
match found by `findAllM`. -/
def removeSpans (s : List Char) (spans : List (Nat × Nat)) : List Char :=
  match spans with
  | [] => s
  | _ =>
    (List.range s.length).filterMap fun i =>
      if spans.any (fun p => p.1 ≤ i ∧ i < p.2) then none else s.get? i

def subAllM (m : List Char → Nat → Option Nat) (s : List Char) : List Char :=
  removeSpans s (findAllM m s)

/-- Literal match of `w` at position `i`. -/
def literalAt (s w : List Char) (i : Nat) : Bool := w.isPrefixOf (s.drop i)

/-- Length of the run of characters satisfying `p` starting at `i`. -/
def runLen (p : Char → Bool) (s : List Char) (i : Nat) : Nat :=
  ((s.drop i).takeWhile p).length

/-! ## The concrete matchers of `bot_global.py`

Each matcher embeds one regular expression from the source, with the
leftmost-then-greedy semantics of Python `re` worked out for that
concrete pattern (the character classes involved are disjoint from
their successors, so greedy matching is deterministic; the one pattern
with real backtracking, the room pattern, is treated below). -/

/-- Model of `\(підгр\.\s*\d+\)` at position `i`; returns the end position. -/
def subgroupAt (s : List Char) (i : Nat) : Option Nat :=
  if literalAt s ("(підгр.".toList) i then
    let j := i + 7 + runLen isPySpace s (i + 7)
    let d := runLen isDigitCh s j
    if d ≥ 1 ∧ literalAt s (")".toList) (j + d) then some (j + d + 1) else none
  else none

/-- The digits captured by `\(підгр\.\s*(\d+)\)` at position `i`. -/
def subgroupDigitsAt (s : List Char) (i : Nat) : Option (List Char) :=
  if literalAt s ("(підгр.".toList) i then
    let j := i + 7 + runLen isPySpace s (i + 7)
    let d := runLen isDigitCh s j
    if d ≥ 1 ∧ literalAt s (")".toList) (j + d) then
      some (pySlice s j (j + d))
    else none
  else none

/-- Helper for the room pattern `\d+[^\s]*\.ауд\.`: starting just after
the digit run, greedy `[^\s]*` followed by the literal `.ауд.` picks the
*last* position `p` reachable through non-whitespace characters at which
the literal occurs; returns the end of the whole match. -/
def roomTailEndF (s : List Char) : Nat → Nat → Option Nat
  | _, 0 => none
  | p, fuel + 1 =>
    match s.get? p with
    | none => none
    | some c =>
      if ¬ isPySpace c then
        let here := if literalAt s (".ауд.".toList) p then some (p + 5) else none
        match roomTailEndF s (p + 1) fuel with
        | some e => some e
        | none => here
      else none

def roomTailEnd (s : List Char) (p : Nat) : Option Nat :=
  roomTailEndF s p (s.length + 1 - p)

/-- Model of `\d+[^\s]*\.ауд\.` at position `i` (end position of the match).
Taking fewer than the maximal digits never yields a match that the
maximal-digit attempt misses, because the literal starts with `.`,
which is neither a digit nor whitespace. -/
def roomAt (s : List Char) (i : Nat) : Option Nat :=
  let d := runLen isDigitCh s i
  if d ≥ 1 then roomTailEnd s (i + d) else none

/-- Model of `[A-ZА-ЯІЇЄ]\.[A-ZА-ЯІЇЄ]\.` at position `i`. -/
def teacherInitialsAt (s : List Char) (i : Nat) : Option Nat :=
  match s.get? i, s.get? (i + 1), s.get? (i + 2), s.get? (i + 3) with
  | some a, some b, some c, some d =>
    if isUpperUA a ∧ b = '.' ∧ isUpperUA c ∧ d = '.' then some (i + 4)
    else none
  | _, _, _, _ => none

/-- Model of `[A-ZА-ЯІЇЄ][a-zа-яіїє]+` at position `i` (a capitalized word). -/
def capsWordAt (s : List Char) (i : Nat) : Option Nat :=
  match s.get? i with
  | some a =>
    if isUpperUA a then
      let r := runLen isLowerUA s (i + 1)
      if r ≥ 1 then some (i + 1 + r) else none
    else none
  | none => none

/-- Model of `\((Л|Пр|Лаб|Л\+Пр|Sem|Екз|Конс)\)` at position `i`: Python tries
the alternatives in written order; returns (end, captured group 1). -/
def typeParenAt (s : List Char) (i : Nat) : Option (Nat × List Char) :=
  if literalAt s ("(".toList) i then
    (["Л".toList, "Пр".toList, "Лаб".toList, "Л+Пр".toList, "Sem".toList,
        "Екз".toList, "Конс".toList].findSome? fun alt =>
      if literalAt s alt (i + 1) ∧ literalAt s (")".toList) (i + 1 + alt.length)
      then some (i + 1 + alt.length + 1, alt) else none)
  else none

/-- The title alternation `(доцент|професор|викладач|асистент|зав\.каф\.)`
at position `i` (end position).  No alternative is a prefix of another,
so first-match-wins is unambiguous. -/
def titleAt (s : List Char) (i : Nat) : Option Nat :=
  ["доцент".toList, "професор".toList, "викладач".toList, "асистент".toList,
      "зав.каф.".toList].findSome? fun alt =>
    if literalAt s alt i then some (i + alt.length) else none

/-- Model of `[A-ZА-ЯІЇЄ][a-zа-яіїє\']+` at position `i` (a capitalized word,
apostrophes allowed in the tail). -/
def capsWordAposAt (s : List Char) (i : Nat) : Option Nat :=
  match s.get? i with
  | some a =>
    if isUpperUA a then
      let r := runLen isLowerUAApos s (i + 1)
      if r ≥ 1 then some (i + 1 + r) else none
    else none
  | none => none

/-- Model of `\s+` followed by a capitalized word, at position `i` — the building
block of both teacher-name patterns.  The classes `\s`, uppercase and
the word tail are pairwise disjoint, so greedy matching is forced. -/
def spacesWordAt (s : List Char) (i : Nat) : Option Nat :=
  let w := runLen isPySpace s i
  if w ≥ 1 then capsWordAposAt s (i + w) else none

/-- Pattern A of the source (lines 77 and 470):
`(доцент|професор|викладач|асистент|зав\.каф\.)\s+W\s+W(\s+W)?` with
`W = [A-ZА-ЯІЇЄ][a-zа-яіїє\']+`.  Returns the end position. -/
def titleFullNameAt (s : List Char) (i : Nat) : Option Nat :=
  match titleAt s i with
  | none => none
  | some j =>
    match spacesWordAt s j with
    | none => none
    | some k =>
      match spacesWordAt s k with
      | none => none
      | some l =>
        match spacesWordAt s l with
        | some e => some e
        | none => some l

/-- Pattern B of the source (line 78):
`(доцент|професор|викладач|асистент|зав\.каф\.)\s+W\s+[A-ZА-ЯІЇЄ]\.([A-ZА-ЯІЇЄ]\.)?`.
Returns the end position. -/
def titleInitialsAt (s : List Char) (i : Nat) : Option Nat :=
  match titleAt s i with
  | none => none
  | some j =>
    match spacesWordAt s j with
    | none => none
    | some k =>
      let w := runLen isPySpace s k
      if w ≥ 1 then
        match s.get? (k + w), s.get? (k + w + 1) with
        | some a, some b =>
          if isUpperUA a ∧ b = '.' then
            match s.get? (k + w + 2), s.get? (k + w + 3) with
            | some c, some d =>
              if isUpperUA c ∧ d = '.' then some (k + w + 4)
              else some (k + w + 2)
            | _, _ => some (k + w + 2)
          else none
        | _, _ => none
      else none

/-! ## Datetimes

A timezone-aware `datetime` is modelled by its civil fields plus its UTC
offset in minutes.  The program fixes `pytz.timezone('Europe/Kyiv')`
(EET, UTC+2, with EU daylight-saving rules: UTC+3 between the last
Sunday of March and the last Sunday of October).  Comparison of aware
datetimes is comparison of the UTC instants. -/

structure PyDateTime where
  year : Nat
  month : Nat
  day : Nat
  hour : Nat
  minute : Nat
  second : Nat
  offMin : Int
deriving DecidableEq, Repr

def isLeapYear (y : Nat) : Bool := (y % 4 = 0 ∧ y % 100 ≠ 0) ∨ y % 400 = 0

def daysInMonth (y m : Nat) : Nat :=
  if m = 2 then (if isLeapYear y then 29 else 28)
  else if m = 4 ∨ m = 6 ∨ m = 9 ∨ m = 11 then 30
  else 31

/-- Days in the proleptic Gregorian calendar before January 1 of `y`. -/
def daysBeforeYear (y : Nat) : Nat :=
  365 * (y - 1) + (y - 1) / 4 - (y - 1) / 100 + (y - 1) / 400

def daysBeforeMonth (y m : Nat) : Nat :=
  (List.range (m - 1)).foldl (fun acc k => acc + daysInMonth y (k + 1)) 0

/-- The UTC instant of an aware datetime, in seconds from an arbitrary
fixed origin; Python compares aware datetimes by exactly this value. -/
def PyDateTime.instant (t : PyDateTime) : Int :=
  ((daysBeforeYear t.year + daysBeforeMonth t.year t.month + (t.day - 1) :
      Int) * 86400 + t.hour * 3600 + t.minute * 60 + t.second) - t.offMin * 60

/-- Model of `a < b` on aware datetimes. -/
def dtLt (a b : PyDateTime) : Prop := a.instant < b.instant

instance : DecidablePred fun p : PyDateTime × PyDateTime => dtLt p.1 p.2 :=
  fun _ => by unfold dtLt; infer_instance

instance (a b : PyDateTime) : Decidable (dtLt a b) := by
  unfold dtLt; infer_instance

def padNum (width n : Nat) : List Char :=
  let digits := (toString n).toList
  List.replicate (width - digits.length) '0' ++ digits

/-- Model of `strftime('%Y%m%d%H%M')` (used by `get_unique_key`). -/
def strftimeYmdHM (t : PyDateTime) : List Char :=
  padNum 4 t.year ++ padNum 2 t.month ++ padNum 2 t.day ++
    padNum 2 t.hour ++ padNum 2 t.minute

/-- Model of `datetime.isoformat()` for an aware datetime with zero
microseconds: `YYYY-MM-DDTHH:MM:SS±HH:MM`. -/
def isoformat (t : PyDateTime) : List Char :=
  let off := if t.offMin < 0 then
      ("-".toList) ++ padNum 2 ((-t.offMin).toNat / 60) ++ (":".toList) ++
        padNum 2 ((-t.offMin).toNat % 60)
    else
      ("+".toList) ++ padNum 2 (t.offMin.toNat / 60) ++ (":".toList) ++
        padNum 2 (t.offMin.toNat % 60)
  padNum 4 t.year ++ ("-".toList) ++ padNum 2 t.month ++ ("-".toList) ++
    padNum 2 t.day ++ ("T".toList) ++ padNum 2 t.hour ++ (":".toList) ++
    padNum 2 t.minute ++ (":".toList) ++ padNum 2 t.second ++ off

/-- Digits-only string to number (the pieces below are pre-checked to
be all digits). -/
def digitsToNat (s : List Char) : Nat :=
  s.foldl (fun acc c => acc * 10 + (c.toNat - 0x30)) 0

def allDigits (s : List Char) : Bool := s.all isDigitCh

/-- Model of `%d` of `strptime`: `3[01]|[12]\d|0[1-9]|[1-9]` matched against an
entire dot-delimited field. -/
def strptimeDayField (s : List Char) : Option Nat :=
  if allDigits s ∧ (s.length = 1 ∨ s.length = 2) then
    let v := digitsToNat s
    if 1 ≤ v ∧ v ≤ 31 then some v else none
  else none

/-- Model of `%m` of `strptime`: `1[0-2]|0[1-9]|[1-9]`. -/
def strptimeMonthField (s : List Char) : Option Nat :=
  if allDigits s ∧ (s.length = 1 ∨ s.length = 2) then
    let v := digitsToNat s
    if 1 ≤ v ∧ v ≤ 12 then some v else none
  else none

/-- Model of `datetime.strptime(s, '%d.%m.%Y').date()`: the literal dots force a
unique split of the input; `%Y` is exactly four digits; the resulting
`datetime` construction validates the day against the month length and
rejects year 0.  Failure is Python's `ValueError`. -/
def pyStrptimeDate (s : List Char) : Option (Nat × Nat × Nat) :=
  match pySplit '.' s with
  | [p1, p2, p3] =>
    match strptimeDayField p1, strptimeMonthField p2 with
    | some d, some m =>
      if allDigits p3 ∧ p3.length = 4 then
        let y := digitsToNat p3
        if 1 ≤ y ∧ d ≤ daysInMonth y m then some (d, m, y) else none
      else none
    | _, _ => none
  | _ => none

/-- Model of `datetime.strptime(s, '%H:%M').time()`: `%H` is
`2[0-3]|[0-1]\d|\d`, `%M` is `[0-5]\d|\d`, separated by a literal `:`,
with nothing left over. -/
def pyStrptimeTime (s : List Char) : Option (Nat × Nat) :=
  match pySplit ':' s with
  | [p1, p2] =>
    if allDigits p1 ∧ (p1.length = 1 ∨ p1.length = 2) ∧
        allDigits p2 ∧ (p2.length = 1 ∨ p2.length = 2) then
      let h := digitsToNat p1
      let mi := digitsToNat p2
      if h ≤ 23 ∧ mi ≤ 59 then some (h, mi) else none
    else none
  | _ => none

/-- Weekday of a civil date, 0 = Monday (proleptic Gregorian).
January 1 of year 1 was a Monday. -/
def weekday (y m d : Nat) : Nat :=
  (daysBeforeYear y + daysBeforeMonth y m + (d - 1)) % 7

/-- The day-of-month of the last Sunday of month `m` in year `y`. -/
def lastSunday (y m : Nat) : Nat :=
  let last := daysInMonth y m
  last - (weekday y m last + 1) % 7

/-- Whether Europe/Kyiv daylight-saving time applies to a naive local
time, under `pytz.localize(..., is_dst=False)`: DST between the last
Sunday of March 04:00 local and the last Sunday of October 03:00 local
(the ambiguous and non-existent hours resolve to standard time under
`is_dst=False`). -/
def kyivDst (y m d h : Nat) : Bool :=
  let startD := lastSunday y 3
  let endD := lastSunday y 10
  (decide (3 < m) ∨ (m = 3 ∧ (startD < d ∨ (d = startD ∧ 4 ≤ h)))) ∧
    (decide (m < 10) ∨ (m = 10 ∧ (d < endD ∨ (d = endD ∧ h < 3))))

/-- Model of `TIMEZONE.localize(datetime.combine(date, time))` for Europe/Kyiv. -/
def kyivLocalize (y m d h mi : Nat) : PyDateTime :=
  { year := y, month := m, day := d, hour := h, minute := mi, second := 0,
    offMin := if kyivDst y m d h then 180 else 120 }

/-! ## `hashlib.md5(...).hexdigest()[:8]`

A complete embedding of MD5 (RFC 1321) over explicit byte lists, with
32-bit words as `Nat` reduced `% 2^32`, plus UTF-8 encoding of the
input string, exactly as `key_data.encode()` produces it. -/

def utf8Bytes (s : List Char) : List Nat :=
  s.flatMap fun c =>
    let n := c.toNat
    if n < 0x80 then [n]
    else if n < 0x800 then [0xC0 + n / 64, 0x80 + n % 64]
    else if n < 0x10000 then
      [0xE0 + n / 4096, 0x80 + n / 64 % 64, 0x80 + n % 64]
    else
      [0xF0 + n / 262144, 0x80 + n / 4096 % 64, 0x80 + n / 64 % 64,
        0x80 + n % 64]

def md5K : List Nat :=
  [0xd76aa478, 0xe8c7b756, 0x242070db, 0xc1bdceee, 0xf57c0faf, 0x4787c62a,
   0xa8304613, 0xfd469501, 0x698098d8, 0x8b44f7af, 0xffff5bb1, 0x895cd7be,
   0x6b901122, 0xfd987193, 0xa679438e, 0x49b40821, 0xf61e2562, 0xc040b340,
   0x265e5a51, 0xe9b6c7aa, 0xd62f105d, 0x02441453, 0xd8a1e681, 0xe7d3fbc8,
   0x21e1cde6, 0xc33707d6, 0xf4d50d87, 0x455a14ed, 0xa9e3e905, 0xfcefa3f8,
   0x676f02d9, 0x8d2a4c8a, 0xfffa3942, 0x8771f681, 0x6d9d6122, 0xfde5380c,
   0xa4beea44, 0x4bdecfa9, 0xf6bb4b60, 0xbebfbc70, 0x289b7ec6, 0xeaa127fa,
   0xd4ef3085, 0x04881d05, 0xd9d4d039, 0xe6db99e5, 0x1fa27cf8, 0xc4ac5665,
   0xf4292244, 0x432aff97, 0xab9423a7, 0xfc93a039, 0x655b59c3, 0x8f0ccc92,
   0xffeff47d, 0x85845dd1, 0x6fa87e4f, 0xfe2ce6e0, 0xa3014314, 0x4e0811a1,
   0xf7537e82, 0xbd3af235, 0x2ad7d2bb, 0xeb86d391]

def md5S : List Nat :=
  [7, 12, 17, 22, 7, 12, 17, 22, 7, 12, 17, 22, 7, 12, 17, 22,
   5, 9, 14, 20, 5, 9, 14, 20, 5, 9, 14, 20, 5, 9, 14, 20,
   4, 11, 16, 23, 4, 11, 16, 23, 4, 11, 16, 23, 4, 11, 16, 23,
   6, 10, 15, 21, 6, 10, 15, 21, 6, 10, 15, 21, 6, 10, 15, 21]

def w32 (n : Nat) : Nat := n % 4294967296

def rotl32 (x n : Nat) : Nat := w32 (x * 2 ^ n + x / 2 ^ (32 - n))

def md5Not (x : Nat) : Nat := 4294967295 - w32 x

/-- MD5 padding: `0x80`, zeros to 56 mod 64, then the bit length as a
64-bit little-endian quantity. -/
def md5Pad (msg : List Nat) : List Nat :=
  let n := msg.length
  let padLen := (55 + 64 - n % 64) % 64 + 1
  let bitLen := (8 * n) % 2 ^ 64
  msg ++ (0x80 :: List.replicate (padLen - 1) 0) ++
    (List.range 8).map fun i => bitLen / 2 ^ (8 * i) % 256

/-- Little-endian 32-bit words of one 64-byte block. -/
def md5Words (block : List Nat) : List Nat :=
  (List.range 16).map fun j =>
    (block.getD (4 * j) 0) + (block.getD (4 * j + 1) 0) * 256 +
      (block.getD (4 * j + 2) 0) * 65536 + (block.getD (4 * j + 3) 0) * 16777216

def md5F (i b c d : Nat) : Nat :=
  if i < 16 then (b &&& c) ||| (md5Not b &&& d)
  else if i < 32 then (d &&& b) ||| (md5Not d &&& c)
  else if i < 48 then b ^^^ c ^^^ d
  else c ^^^ (b ||| md5Not d)

def md5G (i : Nat) : Nat :=
  if i < 16 then i
  else if i < 32 then (5 * i + 1) % 16
  else if i < 48 then (3 * i + 5) % 16
  else (7 * i) % 16

def md5Step (m : List Nat) (st : Nat × Nat × Nat × Nat) (i : Nat) :
    Nat × Nat × Nat × Nat :=
  let (a, b, c, d) := st
  let f := w32 (md5F i b c d + a + md5K.getD i 0 + m.getD (md5G i) 0)
  (d, w32 (b + rotl32 f (md5S.getD i 0)), b, c)

def md5Block (st : Nat × Nat × Nat × Nat) (block : List Nat) :
    Nat × Nat × Nat × Nat :=
  let m := md5Words block
  let (a, b, c, d) := (List.range 64).foldl (md5Step m) st
  (w32 (st.1 + a), w32 (st.2.1 + b), w32 (st.2.2.1 + c), w32 (st.2.2.2 + d))

def chunks64F : Nat → List Nat → List (List Nat)
  | 0, _ => []
  | fuel + 1, msg =>
    if msg = [] then []
    else if msg.length ≤ 64 then [msg]
    else msg.take 64 :: chunks64F fuel (msg.drop 64)

def chunks64 (msg : List Nat) : List (List Nat) :=
  chunks64F (msg.length + 1) msg

def hexDigit (n : Nat) : Char :=
  if n < 10 then Char.ofNat (0x30 + n) else Char.ofNat (0x61 + n - 10)

def byteHex (b : Nat) : List Char := [hexDigit (b / 16), hexDigit (b % 16)]

def le32Bytes (x : Nat) : List Nat :=
  [x % 256, x / 256 % 256, x / 65536 % 256, x / 16777216 % 256]

/-- Full MD5 hex digest (32 lowercase hex characters) of a byte list. -/
def md5Hex (msg : List Nat) : List Char :=
  let blocks := chunks64 (md5Pad msg)
  let (a, b, c, d) :=
    blocks.foldl md5Block (0x67452301, 0xefcdab89, 0x98badcfe, 0x10325476)
  ((le32Bytes a ++ le32Bytes b ++ le32Bytes c ++ le32Bytes d).map byteHex).flatten

/-- Model of `hashlib.md5(s.encode()).hexdigest()[:8]`. -/
def md5Hex8 (s : List Char) : List Char := (md5Hex (utf8Bytes s)).take 8

/-! ## `ScheduleEvent`

The structure mirrors the attributes a constructed Python
`ScheduleEvent` object carries (`subject` is the cleaned text and
`hash` the stored fingerprint, both computed once in `__init__` and
then only read).  `ScheduleEvent.build` embeds `__init__` applied to an
`event_data` dictionary with the usual field types. -/

structure ScheduleEvent where
  raw_subject : List Char
  teacher : List Char
  room : List Char
  event_type : List Char
  group : List Char
  is_remote : Bool
  links : List (List Char)
  start_time : PyDateTime
  end_time : PyDateTime
  subject : List Char
  hash : List Char
deriving DecidableEq, Repr

/-- The teacher-removal step of `_clean_subject` (lines 71–72):
`if self.teacher: text = text.replace(self.teacher, '')`. -/
def teacherRemovalStep (teacher text : List Char) : List Char :=
  if teacher ≠ [] then replAll teacher text else text

/-- Model of `ScheduleEvent._clean_subject` (lines 66–82 of `bot_global.py`),
with `self.event_type` and `self.teacher` passed explicitly. -/
def cleanSubject (event_type teacher text0 : List Char) : List Char :=
  let t1 := replAllCI ("дистанційно".toList) text0
  let t2 := if event_type ≠ [] then
      replAllCI (("(".toList) ++ event_type ++ (")".toList)) t1
    else t1
  let t3 := teacherRemovalStep teacher t2
  let t4 := subAllM subgroupAt t3
  let t5 := subAllM titleFullNameAt t4
  let t6 := subAllM titleInitialsAt t5
  let t7 := subAllM roomAt t6
  let t8 := pyStrip (replAll ("*".toList) t7)
  pyStrip (collapseSpaces t8)
where
  /-- `re.sub(r'\s+', ' ', ...)`: each maximal whitespace run becomes
  one space. -/
  collapseSpaces : List Char → List Char
    | [] => []
    | [c] => if isPySpace c then [' '] else [c]
    | c :: d :: rest =>
      if isPySpace c ∧ isPySpace d then collapseSpaces (d :: rest)
      else (if isPySpace c then ' ' else c) :: collapseSpaces (d :: rest)

/-- Python `f"{b}"` for a bool. -/
def pyBoolStr (b : Bool) : List Char :=
  if b then "True".toList else "False".toList

/-- Model of `",".join(links)`. -/
def joinComma (links : List (List Char)) : List Char :=
  match links with
  | [] => []
  | l :: ls => l ++ (ls.flatMap fun x => (",".toList) ++ x)

/-- Model of `ScheduleEvent._calculate_hash` (lines 84–87). -/
def calculateHash (start_time : PyDateTime) (subject teacher room group :
    List Char) (is_remote : Bool) (links : List (List Char)) : List Char :=
  md5Hex8 (isoformat start_time ++ ("-".toList) ++ subject ++ ("-".toList) ++
    teacher ++ ("-".toList) ++ room ++ ("-".toList) ++ group ++ ("-".toList) ++
    pyBoolStr is_remote ++ ("-".toList) ++ joinComma links)

/-- Model of `ScheduleEvent.__init__` applied to an `event_data` record whose
fields are present with their usual types. -/
def ScheduleEvent.build (subject teacher room etype group : List Char)
    (is_remote : Bool) (links : List (List Char))
    (start_time end_time : PyDateTime) : ScheduleEvent :=
  let cleaned := cleanSubject etype teacher subject
  { raw_subject := subject, teacher := teacher, room := room,
    event_type := etype, group := group, is_remote := is_remote,
    links := links, start_time := start_time, end_time := end_time,
    subject := cleaned,
    hash := calculateHash start_time cleaned teacher room group is_remote links }

/-- Model of `ScheduleEvent.get_unique_key` (lines 89–90). -/
def ScheduleEvent.uniqueKey (e : ScheduleEvent) : List Char :=
  strftimeYmdHM e.start_time ++ ("-".toList) ++ e.subject ++ ("-".toList) ++
    e.group

/-! ## Changes, the cache, and `update_and_detect_changes` -/

inductive ChangeType where
  | added
  | removed
  | modified
deriving DecidableEq, Repr

/-- Model of `ScheduleChange` (lines 119–123): a change type, the (new) event,
and for modifications also the old event. -/
structure ScheduleChange where
  change_type : ChangeType
  event : ScheduleEvent
  old_event : Option ScheduleEvent := none
deriving DecidableEq, Repr

/-- A Python dict keyed by strings, as an association list: an
assignment to a present key overwrites the value in place, an
assignment to a fresh key appends; iteration follows the list. -/
def dictSet {α : Type} (m : List (List Char × α)) (k : List Char) (v : α) :
    List (List Char × α) :=
  match m with
  | [] => [(k, v)]
  | p :: rest => if p.1 = k then (k, v) :: rest else p :: dictSet rest k v

def dictFind? {α : Type} (m : List (List Char × α)) (k : List Char) :
    Option α :=
  (m.find? (fun p => decide (p.1 = k))).map Prod.snd

/-- Model of `{e.get_unique_key(): e for e in events}` — key order is first
occurrence, value is the last writer. -/
def buildMap (events : List ScheduleEvent) :
    List (List Char × ScheduleEvent) :=
  events.foldl (fun m e => dictSet m e.uniqueKey e) []

/-- The in-memory `ScheduleCache._group_caches` dict.  `_save_cache`
(whole-file persistence) writes exactly this mapping, so the persisted
baseline is identified with it. -/
def Cache : Type := List (List Char × List ScheduleEvent)

/-- Model of `self._group_caches.get(group_id, [])`. -/
def cacheGet (c : Cache) (gid : List Char) : List ScheduleEvent :=
  (dictFind? c gid).getD []

def cacheSet (c : Cache) (gid : List Char) (es : List ScheduleEvent) : Cache :=
  dictSet c gid es

/-- The two detection loops of `update_and_detect_changes`
(lines 190–205), over the already-built key maps, with `now` the
evaluation time. -/
def detectChanges (oldMap newMap : List (List Char × ScheduleEvent))
    (now : PyDateTime) : List ScheduleChange :=
  oldMap.filterMap (fun p =>
    match dictFind? newMap p.1 with
    | none =>
      if dtLt p.2.end_time now then none
      else some { change_type := ChangeType.removed, event := p.2 }
    | some nv =>
      if p.2.hash ≠ nv.hash then
        some { change_type := ChangeType.modified, event := nv,
               old_event := some p.2 }
      else none) ++
  newMap.filterMap (fun p =>
    match dictFind? oldMap p.1 with
    | none =>
      if dtLt p.2.end_time now then none
      else some { change_type := ChangeType.added, event := p.2 }
    | some _ => none)

/-- Model of `ScheduleCache.update_and_detect_changes` (lines 183–210), returning
the change list and the cache state after the call (persistence via
`_save_cache` always writes the in-memory state, so the post state *is*
the persisted state). -/
def updateAndDetectChanges (c : Cache) (gid : List Char)
    (newEvents : List ScheduleEvent) (now : PyDateTime) :
    List ScheduleChange × Cache :=
  let oldEvents := cacheGet c gid
  if oldEvents = [] ∧ newEvents ≠ [] then
    ([], cacheSet c gid newEvents)
  else
    let changes := detectChanges (buildMap oldEvents) (buildMap newEvents) now
    if changes ≠ [] ∨ oldEvents.length ≠ newEvents.length then
      (changes, cacheSet c gid newEvents)
    else
      (changes, c)

/-- One tracked group's slice of `_check_schedule_changes_job`
(lines 630–635): fetch result `fetched` for `gid`; an empty fetch with a
non-empty baseline skips both comparison and persistence. -/
def checkGroupStep (c : Cache) (gid : List Char)
    (fetched : List ScheduleEvent) (now : PyDateTime) :
    List ScheduleChange × Cache :=
  if fetched = [] ∧ cacheGet c gid ≠ [] then ([], c)
  else updateAndDetectChanges c gid fetched now

/-- The per-cycle loop of `_check_schedule_changes_job` over the active
groups, with `fetch` the (pure snapshot of the) fetch results this
cycle; returns each group's reported change list and the final cache. -/
def checkCycle (fetch : List Char → List ScheduleEvent) (now : PyDateTime) :
    Cache → List (List Char) → List (List Char × List ScheduleChange) × Cache
  | c, [] => ([], c)
  | c, g :: gs =>
    let r := checkGroupStep c g (fetch g) now
    let rest := checkCycle fetch now r.2 gs
    ((g, r.1) :: rest.1, rest.2)

/-! ## `NungParser._split_merged_events` (lines 385–411) -/

/-- The split point for the consecutive marker pair `(cur, next)`:
the loop body for `i < len(subgroups) - 1`. -/
def splitPointFor (s : List Char) (cur next : Nat × Nat) : Nat :=
  let searchStart := cur.2
  let seg := pySlice s searchStart next.1
  match searchM roomAt seg with
  | some r => searchStart + r.2
  | none =>
    match searchM teacherInitialsAt seg with
    | some t => searchStart + t.2
    | none =>
      match (findAllM capsWordAt seg).getLast? with
      | some w => searchStart + w.1
      | none => next.1

/-- Model of `_split_merged_events`.  The loop's `(prev_split, split_point)`
pairs are exactly consecutive pairs of `0` followed by the split points
of consecutive marker pairs and the final `len(description)`. -/
def splitMergedEvents (s : List Char) : List (List Char) :=
  let subs := findAllM subgroupAt s
  if subs.length < 2 then [s]
  else
    let sps := (subs.zip subs.tail).map (fun q => splitPointFor s q.1 q.2) ++
      [s.length]
    ((0 :: sps).zip sps).filterMap fun p =>
      let chunk := pyStrip (pySlice s p.1 p.2)
      if chunk = [] then none else some chunk

/-! ## `NungParser.get_schedule_json` (lines 413–498)

A raw upstream record; a missing key is `none` (the claims do not
exercise keys present with non-string values). -/

structure RawItem where
  lesson_description : Option (List Char) := none
  title : Option (List Char) := none
  teacher : Option (List Char) := none
  room : Option (List Char) := none
  itemType : Option (List Char) := none
  object : Option (List Char) := none
  date : Option (List Char) := none
  lesson_time : Option (List Char) := none
  link : Option (List Char) := none
  url : Option (List Char) := none
  online : Option (List Char) := none
deriving Repr

/-- Python exceptions distinguished by the handlers in the source: the
inner `except ValueError` (line 445) catches only `ValueError`; any
other exception reaches the whole-fetch `except Exception`
(line 496). -/
inductive PyError where
  | valueError
  | typeError
deriving DecidableEq, Repr

/-- Model of `item.get(k) or ""` (None and the empty string are both falsy). -/
def getOrEmpty (v : Option (List Char)) : List Char := v.getD []

/-- The body of the `for description in descriptions` loop
(lines 435–492), producing `none` for `continue`, `some event` for a
successful construction, and an error for an uncaught exception. -/
def processDescription (objMode : List Char)
    (linksMap : List (List Char × List Char)) (item : RawItem)
    (jsonLink : List Char) (description : List Char) :
    Except PyError (Option ScheduleEvent) := do
  let timeRange := pySplit '-' (getOrEmpty item.lesson_time)
  if timeRange.length ≠ 2 then
    return none
  -- `datetime.strptime(date_str, ...)` with `date_str = None` raises
  -- `TypeError`, which the inner `except ValueError` does not catch.
  match item.date with
  | none => throw PyError.typeError
  | some dateStr =>
    match pyStrptimeDate dateStr,
        pyStrptimeTime (pyStrip (timeRange.getD 0 [])),
        pyStrptimeTime (pyStrip (timeRange.getD 1 [])) with
    | some (d, m, y), some (h1, mi1), some (h2, mi2) =>
      let start_dt := kyivLocalize y m d h1 mi1
      let end_dt := kyivLocalize y m d h2 mi2
      let room0 := getOrEmpty item.room
      let room := if room0 = [] then
          match searchM roomAt description with
          | some r => pySlice description r.1 r.2
          | none => []
        else room0
      let etype0 := getOrEmpty item.itemType
      let event_type := if etype0 = [] then
          match searchM (fun s i => (typeParenAt s i).map Prod.fst) description
          with
          | some p =>
            -- group(1) of the matched alternative
            ((typeParenAt description p.1).map Prod.snd).getD []
          | none => []
        else etype0
      let clean0 := pyStrip (replAll ("*".toList) description)
      let teacher0 := getOrEmpty item.teacher
      let group0 := getOrEmpty item.object
      let group_name :=
        match searchM (fun s i => (subgroupAt s i)) clean0 with
        | some p =>
          ("(підгр. ".toList) ++ ((subgroupDigitsAt clean0 p.1).getD []) ++
            (")".toList)
        | none => group0
      let teacher_name := if teacher0 = [] ∧ objMode = ("group".toList) then
          match searchM titleFullNameAt clean0 with
          | some t => pySlice clean0 t.1 t.2
          | none => teacher0
        else teacher0
      let is_remote :=
        (["Tak".toList, "Yes".toList, "1".toList, "Так".toList,
            "True".toList].any fun v => item.online = some v) ∨
          containsSub (clean0.map toLowerPy) ("дистанційно".toList)
      let clean1 := pyStrip (replAllCI ("дистанційно".toList) clean0)
      let clean_text := if clean1 = [] ∧ (getOrEmpty item.title) ≠ [] then
          getOrEmpty item.title
        else clean1
      let final_links := if jsonLink ≠ [] then [jsonLink]
        else if linksMap ≠ [] ∧ teacher_name ≠ [] then
          match linksMap.find? (fun p => containsSub teacher_name p.1) with
          | some p => [p.2]
          | none => []
        else []
      return some (ScheduleEvent.build clean_text teacher_name room
        event_type group_name is_remote final_links start_dt end_dt)
    | _, _, _ =>
      -- `except ValueError: continue`
      return none

/-- The `for item in items` loop (lines 428–492). -/
def processItems (objMode : List Char)
    (linksMap : List (List Char × List Char)) (items : List RawItem) :
    Except PyError (List ScheduleEvent) :=
  items.foldlM
    (fun acc item => do
      let originalDesc := pyOrStr (pyStrip (getOrEmpty item.lesson_description))
        ((getOrEmpty item.title) ++ (" ".toList) ++ (getOrEmpty item.teacher) ++
          (" ".toList) ++ (getOrEmpty item.room))
      let descriptions := splitMergedEvents originalDesc
      let jsonLink := pyOrStr (getOrEmpty item.link) (getOrEmpty item.url)
      descriptions.foldlM
        (fun acc2 description => do
          match ← processDescription objMode linksMap item jsonLink description
          with
          | some ev => pure (acc2 ++ [ev])
          | none => pure acc2)
        acc)
    []

/-- Model of `events.sort(key=lambda x: x.start_time)`: CPython's sort is
stable, so it is extensionally a stable insertion sort on the start
instants (an element is inserted after every earlier element with a
less-or-equal key). -/
def insertByStart (x : ScheduleEvent) : List ScheduleEvent →
    List ScheduleEvent
  | [] => [x]
  | y :: ys =>
    if y.start_time.instant ≤ x.start_time.instant then y :: insertByStart x ys
    else x :: y :: ys

def sortByStart (l : List ScheduleEvent) : List ScheduleEvent :=
  l.foldl (fun acc x => insertByStart x acc) []

/-- Model of `get_schedule_json` from the item list onwards: on any exception
other than the per-record `ValueError` the whole fetch logs and
returns `[]` (line 496–498); otherwise the events are stably sorted by
start time. -/
def getScheduleJson (objMode : List Char)
    (linksMap : List (List Char × List Char)) (items : List RawItem) :
    List ScheduleEvent :=
  match processItems objMode linksMap items with
  | Except.ok events => sortByStart events
  | Except.error _ => []

/-! ## `ScheduleEvent.from_dict` (lines 105–109)

Lines 107–108 assign into the dictionary the *caller* passed before
handing it to `cls(data)`, so `from_dict` is modelled as returning the
event together with the post-state of its argument. -/

inductive PyValue where
  | vStr (s : List Char)
  | vDt (d : PyDateTime)
  | vBool (b : Bool)
  | vList (xs : List (List Char))
deriving DecidableEq, Repr

def PyDict : Type := List (List Char × PyValue)

/-- Model of `datetime.fromisoformat` on the canonical strings `isoformat`
emits: `YYYY-MM-DDTHH:MM:SS±HH:MM` (Python accepts further shapes; the
claims only exercise round-trips of `isoformat` output). -/
def fromIsoformat (s : List Char) : Option PyDateTime :=
  if h : s.length = 25 then
    let g := fun i => s.getD i ' '
    if allDigits (pySlice s 0 4) ∧ g 4 = '-' ∧ allDigits (pySlice s 5 7) ∧
        g 7 = '-' ∧ allDigits (pySlice s 8 10) ∧ g 10 = 'T' ∧
        allDigits (pySlice s 11 13) ∧ g 13 = ':' ∧
        allDigits (pySlice s 14 16) ∧ g 16 = ':' ∧
        allDigits (pySlice s 17 19) ∧ (g 19 = '+' ∨ g 19 = '-') ∧
        allDigits (pySlice s 20 22) ∧ g 22 = ':' ∧
        allDigits (pySlice s 23 25) then
      let off : Int :=
        (digitsToNat (pySlice s 20 22)) * 60 + digitsToNat (pySlice s 23 25)
      some { year := digitsToNat (pySlice s 0 4),
             month := digitsToNat (pySlice s 5 7),
             day := digitsToNat (pySlice s 8 10),
             hour := digitsToNat (pySlice s 11 13),
             minute := digitsToNat (pySlice s 14 16),
             second := digitsToNat (pySlice s 17 19),
             offMin := if g 19 = '-' then -off else off }
    else none
  else none

def dictGetStr (d : PyDict) (k : List Char) (dflt : List Char) : List Char :=
  match dictFind? d k with
  | some (PyValue.vStr s) => s
  | _ => dflt

def dictGetBool (d : PyDict) (k : List Char) (dflt : Bool) : Bool :=
  match dictFind? d k with
  | some (PyValue.vBool b) => b
  | _ => dflt

def dictGetList (d : PyDict) (k : List Char) : List (List Char) :=
  match dictFind? d k with
  | some (PyValue.vList xs) => xs
  | _ => []

def dictGetDt (d : PyDict) (k : List Char) (dflt : PyDateTime) : PyDateTime :=
  match dictFind? d k with
  | some (PyValue.vDt t) => t
  | _ => dflt

/-- Model of `ScheduleEvent.__init__` reading its fields out of a dict
(lines 52–64); `now` stands for the `datetime.now(TIMEZONE)` defaults. -/
def eventFromDict (d : PyDict) (now : PyDateTime) : ScheduleEvent :=
  ScheduleEvent.build
    (dictGetStr d ("subject".toList) ("Невідомий предмет".toList))
    (dictGetStr d ("teacher".toList) [])
    (dictGetStr d ("room".toList) [])
    (dictGetStr d ("type".toList) [])
    (dictGetStr d ("group".toList) [])
    (dictGetBool d ("is_remote".toList) false)
    (dictGetList d ("links".toList))
    (dictGetDt d ("start_time".toList) now)
    (dictGetDt d ("end_time".toList) now)

/-- Model of `from_dict`: parse the two timestamp strings, overwrite them in the
argument dict, then construct the event from the mutated dict.  A
missing key or a value `fromisoformat` rejects raises (modelled
`none`). -/
def fromDict (data : PyDict) (now : PyDateTime) :
    Option (ScheduleEvent × PyDict) :=
  match dictFind? data ("start_time".toList), dictFind? data ("end_time".toList)
  with
  | some (PyValue.vStr s), some (PyValue.vStr e) =>
    match fromIsoformat s, fromIsoformat e with
    | some sd, some ed =>
      let mutated := dictSet (dictSet data ("start_time".toList)
        (PyValue.vDt sd)) ("end_time".toList) (PyValue.vDt ed)
      some (eventFromDict mutated now, mutated)
    | _, _ => none
  | _, _ => none

/-! ## Specification-side definitions

These definitions follow the wording of the specification (not the
code); the theorems below compare the embedded code against them. -/

/-- Spec, §4.4: "For every identity key present only in the old
mapping: if its event's end time is already in the past … ignore it …
otherwise emit `Removed(old_event)`." -/
def specRemovedList (oldMap newMap : List (List Char × ScheduleEvent))
    (now : PyDateTime) : List ScheduleChange :=
  oldMap.filterMap fun p =>
    if dictFind? newMap p.1 = none ∧ ¬ dtLt p.2.end_time now then
      some { change_type := ChangeType.removed, event := p.2 }
    else none

/-- Spec, §4.4: "For every identity key present in both mappings with
differing fingerprints: emit `Modified(new_event, old_event)`." -/
def specModifiedList (oldMap newMap : List (List Char × ScheduleEvent)) :
    List ScheduleChange :=
  oldMap.filterMap fun p =>
    match dictFind? newMap p.1 with
    | some nv =>
      if p.2.hash ≠ nv.hash then
        some { change_type := ChangeType.modified, event := nv,
               old_event := some p.2 }
      else none
    | none => none

/-- Spec, §4.4: "For every identity key present only in the new
mapping: if its event's end time is already in the past, ignore it …
otherwise emit `Added(new_event)`." -/
def specAddedList (oldMap newMap : List (List Char × ScheduleEvent))
    (now : PyDateTime) : List ScheduleChange :=
  newMap.filterMap fun p =>
    if dictFind? oldMap p.1 = none ∧ ¬ dtLt p.2.end_time now then
      some { change_type := ChangeType.added, event := p.2 }
    else none

/-- Spec, §4.2, the boundary priority for one consecutive marker pair:
room-token end, else teacher-initials end, else start of the last
capitalized word, else the next marker's start. -/
def specBoundary (s : List Char) (cur next : Nat × Nat) : Nat :=
  let span := pySlice s cur.2 next.1
  match searchM roomAt span with
  | some r => cur.2 + r.2
  | none =>
    match searchM teacherInitialsAt span with
    | some t => cur.2 + t.2
    | none =>
      match (findAllM capsWordAt span).getLast? with
      | some w => cur.2 + w.1
      | none => next.1

/-- Spec, §4.2: "walk consecutive pairs of subgroup markers", producing
the boundary for each pair; "the final segment runs … to the end of the
string". -/
def specBoundaries (s : List Char) : List (Nat × Nat) → List Nat
  | m1 :: m2 :: ms => specBoundary s m1 m2 :: specBoundaries s (m2 :: ms)
  | [_] => [s.length]
  | [] => []

/-- Spec, §4.2: "Each resulting chunk is trimmed; empty chunks are
dropped." -/
def specChunks (s : List Char) (prev : Nat) : List Nat → List (List Char)
  | [] => []
  | b :: bs =>
    let chunk := pyStrip (pySlice s prev b)
    if chunk = [] then specChunks s b bs else chunk :: specChunks s b bs

/-- Spec, §4.1 step 3 as claimed: "remove its first literal occurrence
from the text", leaving later occurrences in place. -/
def specRemoveFirstOnly (teacher text : List Char) : List Char :=
  match searchM
      (fun s i => if teacher ≠ [] ∧ literalAt s teacher i then
        some (i + teacher.length) else none) text with
  | some m => text.take m.1 ++ text.drop m.2
  | none => text

/-! ## Call sequences and concrete sample data -/

/-- One call to `update_and_detect_changes`. -/
structure UpdateCall where
  gid : List Char
  events : List ScheduleEvent
  now : PyDateTime

/-- A sequence of calls to `update_and_detect_changes`, threading the
cache state. -/
def runCalls (c : Cache) (calls : List UpdateCall) : Cache :=
  calls.foldl
    (fun st k => (updateAndDetectChanges st k.gid k.events k.now).2) c

/-- Sample evaluation time: 2025-01-01 12:00 Kyiv. -/
def now0 : PyDateTime := kyivLocalize 2025 1 1 12 0

/-- A sample stored event (fields as `__init__` would have left them;
the detector only reads the attributes). -/
def evA : ScheduleEvent :=
  { raw_subject := "Математика".toList, teacher := [], room := [],
    event_type := [], group := [], is_remote := false, links := [],
    start_time := kyivLocalize 2025 1 15 10 30,
    end_time := kyivLocalize 2025 1 15 11 50,
    subject := "Математика".toList, hash := "00000001".toList }

/-- A second sample event with a different identity key. -/
def evB : ScheduleEvent :=
  { raw_subject := "Фізика".toList, teacher := [], room := [],
    event_type := [], group := [], is_remote := false, links := [],
    start_time := kyivLocalize 2025 1 16 8 30,
    end_time := kyivLocalize 2025 1 16 9 50,
    subject := "Фізика".toList, hash := "00000002".toList }

/-- A cache holding the baseline `[evA]` for group id `"g"`. -/
def cacheG : Cache := [(("g".toList), [evA])]

/-- A well-formed upstream record. -/
def c9GoodItem : RawItem :=
  { lesson_description := some ("Математика (Л) 101.ауд.".toList),
    teacher := some ("доцент Коваль І.П.".toList),
    object := some ("КІ-24-1".toList),
    date := some ("15.01.2025".toList),
    lesson_time := some ("10:30-11:50".toList) }

/-- A record whose `date` field is absent (the `lesson_time` field is
fine). -/
def c9MissingDateItem : RawItem :=
  { lesson_description := some ("Фізика".toList),
    lesson_time := some ("08:00-09:20".toList) }

/-- A record whose `date` field is present but malformed. -/
def c9MalformedDateItem : RawItem :=
  { lesson_description := some ("Хімія".toList),
    date := some ("99.99.2025".toList),
    lesson_time := some ("08:00-09:20".toList) }

/-- A serialized event dictionary as `to_dict` would emit it. -/
def c10Data : PyDict :=
  [(("subject".toList), PyValue.vStr ("Математика".toList)),
   (("teacher".toList), PyValue.vStr []),
   (("room".toList), PyValue.vStr []),
   (("type".toList), PyValue.vStr []),
   (("group".toList), PyValue.vStr []),
   (("is_remote".toList), PyValue.vBool false),
   (("links".toList), PyValue.vList []),
   (("start_time".toList), PyValue.vStr ("2025-01-15T10:30:00+02:00".toList)),
   (("end_time".toList), PyValue.vStr ("2025-01-15T11:50:00+02:00".toList))]

/-! ## Helper lemmas -/

theorem dictFind?_set_self {α : Type} (m : List (List Char × α))
    (k : List Char) (v : α) : dictFind? (dictSet m k v) k = some v := by
  induction m with
  | nil =>
    unfold dictFind? dictSet
    rw [List.find?_cons_of_pos _ (by simp)]
    rfl
  | cons p rest ih =>
    by_cases h : p.1 = k
    · simp only [dictSet, if_pos h]
      unfold dictFind?
      rw [List.find?_cons_of_pos _ (by simp)]
      rfl
    · simp only [dictSet, if_neg h]
      unfold dictFind? at ih ⊢
      rw [List.find?_cons_of_neg _ (by simpa using h)]
      exact ih

theorem dictFind?_set_other {α : Type} (m : List (List Char × α))
    (k k' : List Char) (v : α) (h : k' ≠ k) :
    dictFind? (dictSet m k v) k' = dictFind? m k' := by
  induction m with
  | nil =>
    unfold dictFind? dictSet
    rw [List.find?_cons_of_neg _ (by simpa using Ne.symm h)]
  | cons p rest ih =>
    by_cases hp : p.1 = k
    · simp only [dictSet, if_pos hp]
      unfold dictFind?
      rw [List.find?_cons_of_neg _ (by simpa using Ne.symm h),
        List.find?_cons_of_neg _ (by rw [hp]; simpa using Ne.symm h)]
    · simp only [dictSet, if_neg hp]
      by_cases hp' : p.1 = k'
      · unfold dictFind?
        rw [List.find?_cons_of_pos _ (by simpa using hp'),
          List.find?_cons_of_pos _ (by simpa using hp')]
      · unfold dictFind? at ih ⊢
        rw [List.find?_cons_of_neg _ (by simpa using hp'),
          List.find?_cons_of_neg _ (by simpa using hp')]
        exact ih

theorem cacheGet_set_self (c : Cache) (g : List Char)
    (es : List ScheduleEvent) : cacheGet (cacheSet c g es) g = es := by
  simp [cacheGet, cacheSet, dictFind?_set_self]

theorem cacheGet_set_other (c : Cache) (g g' : List Char)
    (es : List ScheduleEvent) (h : g' ≠ g) :
    cacheGet (cacheSet c g es) g' = cacheGet c g' := by
  simp [cacheGet, cacheSet, dictFind?_set_other _ _ _ _ h]

/-- Splitting one `filterMap` whose function is a pointwise `orElse` of
two functions with disjoint supports into the two separate passes, up
to permutation. -/
theorem filterMap_split_perm {α β : Type} (h f g : α → Option β)
    (l : List α)
    (hfg : ∀ a, h a = Option.orElse (f a) (fun _ => g a))
    (hdisj : ∀ a, f a = none ∨ g a = none) :
    List.Perm (l.filterMap h) (l.filterMap f ++ l.filterMap g) := by
  induction l with
  | nil => simp
  | cons a t ih =>
    rcases hf : f a with _ | b
    · rcases hg : g a with _ | c
      · have ha : h a = none := by rw [hfg a, hf, hg]; rfl
        simpa [List.filterMap_cons, ha, hf, hg] using ih
      · have ha : h a = some c := by rw [hfg a, hf, hg]; rfl
        simp only [List.filterMap_cons, ha, hf, hg]
        exact (ih.cons c).trans List.perm_middle.symm
    · have hg : g a = none := by
        rcases hdisj a with h1 | h1
        · rw [hf] at h1; cases h1
        · exact h1
      have ha : h a = some b := by rw [hfg a, hf]; rfl
      simpa [List.filterMap_cons, ha, hf, hg] using ih.cons b

/-- The result pair of `update_and_detect_changes` when a baseline
already exists: the first branch is not taken, and the returned change
list is `detectChanges` of the two key maps. -/
theorem update_fst_of_baseline (c : Cache) (gid : List Char)
    (newEvents : List ScheduleEvent) (now : PyDateTime)
    (hold : cacheGet c gid ≠ []) :
    (updateAndDetectChanges c gid newEvents now).1 =
      detectChanges (buildMap (cacheGet c gid)) (buildMap newEvents) now := by
  simp only [updateAndDetectChanges]
  rw [if_neg (by rintro ⟨h1, _⟩; exact hold h1)]
  split <;> rfl

/-- Model of `update_and_detect_changes` never touches another entity id's
cache entry. -/
theorem update_frame (c : Cache) (gid g' : List Char)
    (es : List ScheduleEvent) (now : PyDateTime) (h : gid ≠ g') :
    cacheGet (updateAndDetectChanges c g' es now).2 gid = cacheGet c gid := by
  simp only [updateAndDetectChanges]
  split
  · exact cacheGet_set_other _ _ _ _ h
  · split
    · exact cacheGet_set_other _ _ _ _ h
    · rfl

/-! ## Claim theorems -/

/-- C2: for every entity id with no existing baseline and every
non-empty `new_events`, `update_and_detect_changes` returns an empty
change list and establishes `new_events` as the stored (persisted)
baseline for that entity id. -/
theorem C2_first_observation (c : Cache) (gid : List Char)
    (newEvents : List ScheduleEvent) (now : PyDateTime)
    (hempty : cacheGet c gid = []) (hne : newEvents ≠ []) :
    updateAndDetectChanges c gid newEvents now =
      ([], cacheSet c gid newEvents) ∧
    cacheGet (updateAndDetectChanges c gid newEvents now).2 gid = newEvents
    := by
  have h1 : updateAndDetectChanges c gid newEvents now =
      ([], cacheSet c gid newEvents) := by
    simp only [updateAndDetectChanges]
    rw [if_pos ⟨hempty, hne⟩]
  exact ⟨h1, by rw [h1]; exact cacheGet_set_self c gid newEvents⟩

/-- Witness for C2 at a concrete input: the empty cache, group `"g"`,
new events `[evA, evB]`. -/
theorem C2_first_observation_witness :
    cacheGet ([] : Cache) ("g".toList) = [] ∧ [evA, evB] ≠ [] ∧
    (updateAndDetectChanges [] ("g".toList) [evA, evB] now0 =
        ([], cacheSet [] ("g".toList) [evA, evB]) ∧
      cacheGet (updateAndDetectChanges [] ("g".toList) [evA, evB] now0).2
        ("g".toList) = [evA, evB]) :=
  ⟨by decide, by decide,
    C2_first_observation [] ("g".toList) [evA, evB] now0 (by decide)
      (by decide)⟩

/-- C4 (amended): with an existing baseline, the stored baseline is
set to `new_events` *if* the returned change list is non-empty or the
old and new event counts differ; otherwise the cache is left exactly as
it was; and the entries of all other entity ids are unchanged in every
case.  (The claim's "if and only if" fails when the old baseline
already equals `new_events`: see the counterexample.) -/
theorem C4_persistence_rule (c : Cache) (gid : List Char)
    (newEvents : List ScheduleEvent) (now : PyDateTime)
    (hold : cacheGet c gid ≠ []) :
    (((updateAndDetectChanges c gid newEvents now).1 ≠ [] ∨
        (cacheGet c gid).length ≠ newEvents.length) →
      cacheGet (updateAndDetectChanges c gid newEvents now).2 gid =
        newEvents) ∧
    (((updateAndDetectChanges c gid newEvents now).1 = [] ∧
        (cacheGet c gid).length = newEvents.length) →
      (updateAndDetectChanges c gid newEvents now).2 = c) ∧
    (∀ g', g' ≠ gid →
      cacheGet (updateAndDetectChanges c gid newEvents now).2 g' =
        cacheGet c g') := by
  have hfst := update_fst_of_baseline c gid newEvents now hold
  have hne : ¬ (cacheGet c gid = [] ∧ newEvents ≠ []) := by
    rintro ⟨h1, _⟩; exact hold h1
  by_cases hC : detectChanges (buildMap (cacheGet c gid))
      (buildMap newEvents) now ≠ [] ∨
      (cacheGet c gid).length ≠ newEvents.length
  · have hsnd : (updateAndDetectChanges c gid newEvents now).2 =
        cacheSet c gid newEvents := by
      simp only [updateAndDetectChanges]
      rw [if_neg hne, if_pos hC]
    refine ⟨fun _ => ?_, fun hcon => absurd hC ?_, fun g' hg' => ?_⟩
    · rw [hsnd]; exact cacheGet_set_self c gid newEvents
    · rw [hfst] at hcon
      push_neg
      exact ⟨hcon.1, hcon.2⟩
    · rw [hsnd]; exact cacheGet_set_other c gid g' newEvents hg'
  · have hsnd : (updateAndDetectChanges c gid newEvents now).2 = c := by
      simp only [updateAndDetectChanges]
      rw [if_neg hne, if_neg hC]
    push_neg at hC
    refine ⟨fun hcon => ?_, fun _ => hsnd, fun g' _ => by rw [hsnd]⟩
    rcases hcon with h1 | h1
    · rw [hfst] at h1; exact absurd hC.1 (by simpa using h1)
    · exact absurd hC.2 h1

/-- C4 counterexample: with baseline `[evA]` and `new_events = [evA]`
the change list is empty and the counts agree, yet the stored baseline
equals `new_events` (it simply was `new_events` already) — refuting the
claim's "equals new_events if and only if the change list is non-empty
or the counts differ". -/
theorem C4_persistence_counterexample :
    ¬ (cacheGet (updateAndDetectChanges cacheG ("g".toList) [evA] now0).2
        ("g".toList) = [evA] ↔
      ((updateAndDetectChanges cacheG ("g".toList) [evA] now0).1 ≠ [] ∨
        (cacheGet cacheG ("g".toList)).length ≠
          ([evA] : List ScheduleEvent).length)) := by decide

/-- Witness for the amended C4 at a concrete input: baseline `[evA]`,
new events `[evB]` (one removal and one addition, so it persists). -/
theorem C4_persistence_rule_witness :
    cacheGet cacheG ("g".toList) ≠ [] ∧
    ((((updateAndDetectChanges cacheG ("g".toList) [evB] now0).1 ≠ [] ∨
        (cacheGet cacheG ("g".toList)).length ≠
          ([evB] : List ScheduleEvent).length) →
      cacheGet (updateAndDetectChanges cacheG ("g".toList) [evB] now0).2
        ("g".toList) = [evB]) ∧
    ((((updateAndDetectChanges cacheG ("g".toList) [evB] now0).1 = []) ∧
        (cacheGet cacheG ("g".toList)).length =
          ([evB] : List ScheduleEvent).length) →
      (updateAndDetectChanges cacheG ("g".toList) [evB] now0).2 = cacheG) ∧
    (∀ g', g' ≠ ("g".toList) →
      cacheGet (updateAndDetectChanges cacheG ("g".toList) [evB] now0).2 g' =
        cacheGet cacheG g')) :=
  ⟨by decide, C4_persistence_rule cacheG ("g".toList) [evB] now0 (by decide)⟩

/-- One call to `update_and_detect_changes` keeps a non-empty baseline
non-empty, provided the call does not pass an empty event list for that
very entity id. -/
theorem baseline_step (c : Cache) (gid g' : List Char)
    (es : List ScheduleEvent) (now : PyDateTime)
    (hold : cacheGet c gid ≠ []) (hdisc : g' = gid → es ≠ []) :
    cacheGet (updateAndDetectChanges c g' es now).2 gid ≠ [] := by
  by_cases hg : g' = gid
  · subst hg
    have hes : es ≠ [] := hdisc rfl
    simp only [updateAndDetectChanges]
    rw [if_neg (by rintro ⟨h1, _⟩; exact hold h1)]
    split
    · rw [cacheGet_set_self]; exact hes
    · exact hold
  · rw [update_frame c gid g' es now (fun h => hg h.symm)]
    exact hold

/-- C3 (amended): for every entity id and every sequence of calls to
`update_and_detect_changes` in which no call for that entity id passes
an empty `new_events` list (which is what the periodic job's
degraded-mode guard ensures), once a non-empty baseline exists for the
id it never becomes empty again; it is only ever replaced by another
non-empty baseline.  (Without that restriction the claim fails: see the
counterexample, where a single call with `[]` empties the baseline.) -/
theorem C3_baseline_preserved (c : Cache) (calls : List UpdateCall)
    (gid : List Char)
    (hdisc : ∀ k ∈ calls, k.gid = gid → k.events ≠ [])
    (hold : cacheGet c gid ≠ []) :
    cacheGet (runCalls c calls) gid ≠ [] := by
  induction calls generalizing c with
  | nil => exact hold
  | cons k rest ih =>
    simp only [runCalls, List.foldl_cons]
    exact ih _
      (fun k' hk' => hdisc k' (List.mem_cons_of_mem _ hk'))
      (baseline_step c gid k.gid k.events k.now hold
        (hdisc k (List.mem_cons_self _ _)))

/-- C3 counterexample: the baseline `[evA]` (whose event ends in the
future) is non-empty, and a single call with `new_events = []` empties
it — the entity returns to the uninitialized state. -/
theorem C3_baseline_counterexample :
    cacheGet cacheG ("g".toList) ≠ [] ∧
    cacheGet (updateAndDetectChanges cacheG ("g".toList) [] now0).2
      ("g".toList) = [] := by decide

/-- Witness for the amended C3 at a concrete input: two calls, one for
`"g"` with non-empty events, one for another id with empty events. -/
theorem C3_baseline_preserved_witness :
    (∀ k ∈ [UpdateCall.mk ("g".toList) [evB] now0,
        UpdateCall.mk ("h".toList) [] now0],
      k.gid = ("g".toList) → k.events ≠ []) ∧
    cacheGet cacheG ("g".toList) ≠ [] ∧
    cacheGet (runCalls cacheG [UpdateCall.mk ("g".toList) [evB] now0,
        UpdateCall.mk ("h".toList) [] now0]) ("g".toList) ≠ [] :=
  ⟨by decide, by decide,
    C3_baseline_preserved cacheG
      [UpdateCall.mk ("g".toList) [evB] now0,
        UpdateCall.mk ("h".toList) [] now0]
      ("g".toList) (by decide) (by decide)⟩

/-- Processing one group in the cycle never touches another group's
cache entry. -/
theorem checkGroupStep_frame (c : Cache) (gid g : List Char)
    (fetched : List ScheduleEvent) (now : PyDateTime) (h : g ≠ gid) :
    cacheGet (checkGroupStep c g fetched now).2 gid = cacheGet c gid := by
  unfold checkGroupStep
  split
  · rfl
  · exact update_frame c gid g fetched now (fun he => h he.symm)

/-- C5: during a change-detection cycle, every tracked entity whose
fetch yields no events while its stored baseline is non-empty is
skipped: its stored baseline is unchanged after the cycle, and its
reported change list is empty (in particular no `Removed` changes are
reported for its baselined events). -/
theorem C5_empty_fetch_skipped (c : Cache) (groups : List (List Char))
    (fetch : List Char → List ScheduleEvent) (now : PyDateTime)
    (gid : List Char) (hf : fetch gid = [])
    (hold : cacheGet c gid ≠ []) :
    cacheGet (checkCycle fetch now c groups).2 gid = cacheGet c gid ∧
    ∀ p ∈ (checkCycle fetch now c groups).1, p.1 = gid → p.2 = [] := by
  induction groups generalizing c with
  | nil => exact ⟨rfl, by intro p hp; cases hp⟩
  | cons g gs ih =>
    by_cases hg : g = gid
    · subst hg
      have hstep : checkGroupStep c g (fetch g) now = ([], c) := by
        unfold checkGroupStep
        rw [if_pos ⟨hf, hold⟩]
      obtain ⟨ih1, ih2⟩ := ih c hold
      refine ⟨?_, ?_⟩
      · simp only [checkCycle, hstep]
        exact ih1
      · intro p hp
        simp only [checkCycle, hstep, List.mem_cons] at hp
        rcases hp with rfl | hp
        · intro _; rfl
        · exact ih2 p hp
    · have hframe : cacheGet (checkGroupStep c g (fetch g) now).2 gid =
          cacheGet c gid := checkGroupStep_frame c gid g (fetch g) now hg
      obtain ⟨ih1, ih2⟩ := ih (checkGroupStep c g (fetch g) now).2
        (by rw [hframe]; exact hold)
      refine ⟨?_, ?_⟩
      · simp only [checkCycle]
        rw [ih1, hframe]
      · intro p hp
        simp only [checkCycle, List.mem_cons] at hp
        rcases hp with rfl | hp
        · intro hpg; exact absurd hpg hg
        · exact ih2 p hp

/-- Witness for C5 at a concrete input: groups `["g", "h"]`, the fetch
returns `[]` for `"g"` and `[evB]` for `"h"`, and `"g"` has baseline
`[evA]`. -/
theorem C5_empty_fetch_skipped_witness :
    (fun x => if x = ("h".toList) then [evB] else []) ("g".toList) = [] ∧
    cacheGet cacheG ("g".toList) ≠ [] ∧
    (cacheGet (checkCycle (fun x => if x = ("h".toList) then [evB] else [])
        now0 cacheG [("g".toList), ("h".toList)]).2 ("g".toList) =
      cacheGet cacheG ("g".toList) ∧
    ∀ p ∈ (checkCycle (fun x => if x = ("h".toList) then [evB] else [])
        now0 cacheG [("g".toList), ("h".toList)]).1,
      p.1 = ("g".toList) → p.2 = []) :=
  ⟨by decide, by decide,
    C5_empty_fetch_skipped cacheG [("g".toList), ("h".toList)]
      (fun x => if x = ("h".toList) then [evB] else []) now0 ("g".toList)
      (by decide) (by decide)⟩

/-- The change list of `detectChanges` is, as a multiset, exactly the
spec's removed, modified and added lists. -/
theorem detectChanges_perm_spec (oldM newM : List (List Char × ScheduleEvent))
    (now : PyDateTime) :
    List.Perm (detectChanges oldM newM now)
      (specRemovedList oldM newM now ++ specModifiedList oldM newM ++
        specAddedList oldM newM now) := by
  have hsplit := filterMap_split_perm
    (fun p : List Char × ScheduleEvent =>
      (match dictFind? newM p.1 with
      | none =>
        if dtLt p.2.end_time now then none
        else some { change_type := ChangeType.removed, event := p.2 }
      | some nv =>
        if p.2.hash ≠ nv.hash then
          some { change_type := ChangeType.modified, event := nv,
                 old_event := some p.2 }
        else none : Option ScheduleChange))
    (fun p : List Char × ScheduleEvent =>
      (if dictFind? newM p.1 = none ∧ ¬ dtLt p.2.end_time now then
        some { change_type := ChangeType.removed, event := p.2,
               old_event := none }
      else none : Option ScheduleChange))
    (fun p : List Char × ScheduleEvent =>
      (match dictFind? newM p.1 with
      | some nv =>
        if p.2.hash ≠ nv.hash then
          some { change_type := ChangeType.modified, event := nv,
                 old_event := some p.2 }
        else none
      | none => none : Option ScheduleChange))
    oldM
    (fun p => by
      cases hn : dictFind? newM p.1 with
      | none =>
        by_cases hlt : dtLt p.2.end_time now <;>
          simp [hn, hlt, Option.orElse]
      | some nv => simp [hn, Option.orElse])
    (fun p => by
      cases hn : dictFind? newM p.1 with
      | none => right; simp [hn]
      | some nv => left; simp [hn])
  have hadd : List.filterMap
      (fun p : List Char × ScheduleEvent =>
        (match dictFind? oldM p.1 with
        | none =>
          if dtLt p.2.end_time now then none
          else some { change_type := ChangeType.added, event := p.2 }
        | some _ => none : Option ScheduleChange)) newM =
      specAddedList oldM newM now := by
    unfold specAddedList
    refine congrArg (fun f => List.filterMap f newM) (funext fun p => ?_)
    cases hn : dictFind? oldM p.1 with
    | none => by_cases hlt : dtLt p.2.end_time now <;> simp [hn, hlt]
    | some v => simp [hn]
  show List.Perm (List.filterMap _ oldM ++ List.filterMap _ newM) _
  rw [hadd]
  exact hsplit.append_right _

/-- C1: with an existing non-empty baseline, the returned change list
consists exactly (as a multiset — the code interleaves removals and
modifications in one pass over the old mapping) of: one `Removed` per
identity key only in the old mapping whose event has not already ended;
one `Modified(new, old)` per identity key in both mappings with
differing fingerprints; one `Added` per identity key only in the new
mapping whose event has not already ended; and nothing else. -/
theorem C1_change_list_exact (c : Cache) (gid : List Char)
    (newEvents : List ScheduleEvent) (now : PyDateTime)
    (hold : cacheGet c gid ≠ []) :
    List.Perm (updateAndDetectChanges c gid newEvents now).1
      (specRemovedList (buildMap (cacheGet c gid)) (buildMap newEvents) now
        ++ specModifiedList (buildMap (cacheGet c gid)) (buildMap newEvents)
        ++ specAddedList (buildMap (cacheGet c gid)) (buildMap newEvents)
          now) := by
  rw [update_fst_of_baseline c gid newEvents now hold]
  exact detectChanges_perm_spec _ _ _

/-- Witness for C1 at a concrete input: baseline `[evA]`, new events
`[evB]` (one future removal, one future addition). -/
theorem C1_change_list_exact_witness :
    cacheGet cacheG ("g".toList) ≠ [] ∧
    List.Perm (updateAndDetectChanges cacheG ("g".toList) [evB] now0).1
      (specRemovedList (buildMap (cacheGet cacheG ("g".toList)))
          (buildMap [evB]) now0
        ++ specModifiedList (buildMap (cacheGet cacheG ("g".toList)))
          (buildMap [evB])
        ++ specAddedList (buildMap (cacheGet cacheG ("g".toList)))
          (buildMap [evB]) now0) :=
  ⟨by decide, C1_change_list_exact cacheG ("g".toList) [evB] now0 (by decide)⟩

/-- C7 counterexample: the description `" a "` contains zero subgroup
markers, and the segmenter returns `[" a "]` — the input *unchanged*,
not the trimmed input `["a"]` as the claim states. -/
theorem C7_single_counterexample :
    splitMergedEvents (" a ".toList) = [" a ".toList] ∧
    splitMergedEvents (" a ".toList) ≠ [pyStrip (" a ".toList)] := by decide

/-- C7 (amended): for every description containing fewer than two
subgroup markers, the segmenter returns a one-element list whose single
element equals the input *unchanged* (no trimming is applied in this
case). -/
theorem C7_single_passthrough (s : List Char)
    (h : (findAllM subgroupAt s).length < 2) :
    splitMergedEvents s = [s] := by
  unfold splitMergedEvents
  rw [if_pos h]

/-- Witness for the amended C7 at the concrete input `" a "`. -/
theorem C7_single_passthrough_witness :
    (findAllM subgroupAt (" a ".toList)).length < 2 ∧
    splitMergedEvents (" a ".toList) = [" a ".toList] :=
  ⟨by decide, C7_single_passthrough (" a ".toList) (by decide)⟩

theorem dropWhile_dropWhile (p : Char → Bool) (l : List Char) :
    (l.dropWhile p).dropWhile p = l.dropWhile p := by
  induction l with
  | nil => rfl
  | cons c t ih =>
    by_cases h : p c <;> simp [List.dropWhile_cons, h, ih]

theorem dropWhile_of_prefix (p : Char → Bool) (u v : List Char)
    (hpre : v <+: u) (hu : u.dropWhile p = u) : v.dropWhile p = v := by
  obtain ⟨t, rfl⟩ := hpre
  cases v with
  | nil => rfl
  | cons c v' =>
    have hc : ¬ p c = true := by
      intro hc
      have h1 := congrArg List.length hu
      rw [List.cons_append, List.dropWhile_cons, if_pos hc] at h1
      have hle := (List.dropWhile_suffix (l := v' ++ t) p).length_le
      simp only [List.length_append, List.length_cons] at h1 hle
      omega
    simp [List.cons_append, List.dropWhile_cons, hc]

/-- Model of `str.strip()` is idempotent, so every chunk the segmenter emits is
already trimmed. -/
theorem pyStrip_idem (s : List Char) : pyStrip (pyStrip s) = pyStrip s := by
  unfold pyStrip
  have hu : (s.dropWhile isPySpace).dropWhile isPySpace =
      s.dropWhile isPySpace := dropWhile_dropWhile _ s
  have hv : ((((s.dropWhile isPySpace).reverse.dropWhile
      isPySpace).reverse).dropWhile isPySpace) =
      ((s.dropWhile isPySpace).reverse.dropWhile isPySpace).reverse := by
    refine dropWhile_of_prefix _ (s.dropWhile isPySpace) _ ?_ hu
    rw [← List.reverse_suffix]
    simp only [List.reverse_reverse]
    exact List.dropWhile_suffix _
  rw [hv, List.reverse_reverse, dropWhile_dropWhile]

/-- The split points computed by the loop (consecutive-pair zip plus
the final length) are the spec's walked boundaries. -/
theorem splitPoints_eq_specBoundaries (s : List Char) :
    ∀ subs : List (Nat × Nat), subs ≠ [] →
      (subs.zip subs.tail).map (fun q => splitPointFor s q.1 q.2) ++
        [s.length] = specBoundaries s subs := by
  intro subs
  induction subs with
  | nil => intro h; exact absurd rfl h
  | cons m rest ih =>
    intro _
    cases rest with
    | nil => simp [specBoundaries]
    | cons m2 ms =>
      have := ih (by simp)
      simp only [List.zip_cons_cons, List.map_cons, List.cons_append,
        specBoundaries, List.tail_cons] at this ⊢
      rw [this]
      rfl

/-- The chunk construction of the loop (zip of shifted split points,
strip, drop empties) is the spec's chunk walk. -/
theorem chunks_eq_specChunks (s : List Char) :
    ∀ (sps : List Nat) (prev : Nat),
      ((prev :: sps).zip sps).filterMap (fun p =>
        let chunk := pyStrip (pySlice s p.1 p.2)
        if chunk = [] then none else some chunk) =
      specChunks s prev sps := by
  intro sps
  induction sps with
  | nil => intro prev; rfl
  | cons b bs ih =>
    intro prev
    by_cases hc : pyStrip (pySlice s prev b) = [] <;>
      simp [List.zip_cons_cons, List.filterMap_cons, specChunks, hc, ih b]

/-- C6: for every description with at least two subgroup markers, the
segmenter output is exactly the spec's walk: chunks cut at the
priority-chosen boundary for each consecutive marker pair (room-token
end, else teacher-initials end, else last capitalized word start, else
the next marker's start), with the final segment running to the end of
the string, every chunk trimmed and empty chunks dropped. -/
theorem C6_segmenter_walk (s : List Char)
    (h2 : 2 ≤ (findAllM subgroupAt s).length) :
    splitMergedEvents s =
      specChunks s 0 (specBoundaries s (findAllM subgroupAt s)) ∧
    ∀ chunk ∈ splitMergedEvents s, pyStrip chunk = chunk ∧ chunk ≠ [] := by
  have hne : findAllM subgroupAt s ≠ [] := by
    intro h; rw [h] at h2; simp at h2
  have heq : splitMergedEvents s =
      specChunks s 0 (specBoundaries s (findAllM subgroupAt s)) := by
    unfold splitMergedEvents
    rw [if_neg (by omega)]
    rw [← splitPoints_eq_specBoundaries s (findAllM subgroupAt s) hne]
    exact chunks_eq_specChunks s _ 0
  refine ⟨heq, ?_⟩
  intro chunk hchunk
  unfold splitMergedEvents at hchunk
  rw [if_neg (by omega)] at hchunk
  simp only [List.mem_filterMap] at hchunk
  obtain ⟨p, _, hp⟩ := hchunk
  by_cases hemp : pyStrip (pySlice s p.1 p.2) = []
  · simp [hemp] at hp
  · simp only [hemp] at hp
    simp only [if_false, Option.some.injEq] at hp
    subst hp
    exact ⟨pyStrip_idem _, hemp⟩

/-- Witness for C6 at the spec's own example input. -/
theorem C6_segmenter_walk_witness :
    2 ≤ (findAllM subgroupAt
      ("Math (підгр. 1) 101.ауд. Smith (підгр. 2) 102.ауд. Jones".toList)
      ).length ∧
    (splitMergedEvents
        ("Math (підгр. 1) 101.ауд. Smith (підгр. 2) 102.ауд. Jones".toList)
        = specChunks
          ("Math (підгр. 1) 101.ауд. Smith (підгр. 2) 102.ауд. Jones".toList)
          0 (specBoundaries
            ("Math (підгр. 1) 101.ауд. Smith (підгр. 2) 102.ауд. Jones".toList)
            (findAllM subgroupAt
              ("Math (підгр. 1) 101.ауд. Smith (підгр. 2) 102.ауд. Jones".toList))) ∧
      ∀ chunk ∈ splitMergedEvents
        ("Math (підгр. 1) 101.ауд. Smith (підгр. 2) 102.ауд. Jones".toList),
        pyStrip chunk = chunk ∧ chunk ≠ []) :=
  ⟨by decide,
    C6_segmenter_walk
      ("Math (підгр. 1) 101.ауд. Smith (підгр. 2) 102.ауд. Jones".toList)
      (by decide)⟩

/-- The fuel argument of `replAllF` is irrelevant once it covers the
string length (each scanning step consumes at least one character). -/
theorem replAllF_fuel_irrel (w : List Char) :
    ∀ (f1 : Nat) (f2 : Nat) (s : List Char), s.length ≤ f1 →
      s.length ≤ f2 → replAllF w f1 s = replAllF w f2 s := by
  intro f1
  induction f1 with
  | zero =>
    intro f2 s hs1 _
    have : s = [] := List.length_eq_zero.mp (Nat.le_zero.mp hs1)
    subst this
    cases f2 <;> rfl
  | succ f1 ih =>
    intro f2 s hs1 hs2
    cases s with
    | nil => cases f2 <;> rfl
    | cons c rest =>
      cases f2 with
      | zero => simp at hs2
      | succ g =>
        simp only [replAllF]
        by_cases hcond : w ≠ [] ∧ w.isPrefixOf (c :: rest)
        · rw [if_pos hcond, if_pos hcond]
          have hw : 1 ≤ w.length := List.length_pos.mpr hcond.1
          apply ih
          · simp only [List.length_drop, List.length_cons]
            simp only [List.length_cons] at hs1
            omega
          · simp only [List.length_drop, List.length_cons]
            simp only [List.length_cons] at hs2
            omega
        · rw [if_neg hcond, if_neg hcond]
          simp only [List.length_cons] at hs1 hs2
          rw [ih g rest (by omega) (by omega)]

/-- Model of `str.replace` steps over a position where the needle does not
occur. -/
theorem replAll_cons_no_match (w : List Char) (c : Char)
    (rest : List Char) (h : ¬ (w ≠ [] ∧ w.isPrefixOf (c :: rest))) :
    replAll w (c :: rest) = c :: replAll w rest := by
  unfold replAll
  simp only [List.length_cons, replAllF, if_neg h]

/-- Model of `str.replace` removes an occurrence at the current position and
continues scanning after it. -/
theorem replAll_eat (w t : List Char) (hw : w ≠ []) :
    replAll w (w ++ t) = replAll w t := by
  obtain ⟨c, w', rfl⟩ : ∃ c w', w = c :: w' := by
    cases w with
    | nil => exact absurd rfl hw
    | cons c w' => exact ⟨c, w', rfl⟩
  have hpre : (c :: w').isPrefixOf ((c :: w') ++ t) := by
    rw [ List.isPrefixOf_iff_prefix]
    exact ⟨t, rfl⟩
  show replAllF (c :: w') ((c :: w') ++ t).length ((c :: w') ++ t) = _
  rw [show (c :: w') ++ t = c :: (w' ++ t) from rfl]
  simp only [List.length_cons, replAllF]
  rw [if_pos ⟨hw, by simpa using hpre⟩]
  have hdrop : List.drop (w'.length + 1) (c :: (w' ++ t)) = t := by
    simpa using List.drop_left (c :: w') t
  rw [hdrop]
  apply replAllF_fuel_irrel
  · simp [List.length_append]
  · rfl

/-- Around the first occurrence of the needle, `str.replace` keeps the
prefix, deletes the occurrence, and keeps replacing in the tail. -/
theorem replAll_first_split (w p t : List Char) (hw : w ≠ [])
    (hfirst : ∀ i < p.length, ¬ w.isPrefixOf ((p ++ w ++ t).drop i)) :
    replAll w (p ++ w ++ t) = p ++ replAll w t := by
  induction p with
  | nil =>
    simp only [List.nil_append]
    exact replAll_eat w t hw
  | cons c p' ih =>
    have h0 : ¬ w.isPrefixOf (c :: (p' ++ w ++ t)) := by
      have := hfirst 0 (by simp)
      simpa using this
    rw [show (c :: p') ++ w ++ t = c :: (p' ++ w ++ t) from rfl]
    rw [replAll_cons_no_match w c _ (by rintro ⟨_, hpre⟩; exact h0 hpre)]
    rw [ih (fun i hi => by
      have := hfirst (i + 1) (by simp; omega)
      simpa using this)]
    rfl

/-- C8 counterexample: teacher `"АБ"`, text `"АБ x АБ"`.  The code's
teacher-removal step (`str.replace`) yields `" x "`, removing *both*
occurrences, while removing only the first occurrence would yield
`" x АБ"` — refuting "removes exactly the first literal occurrence …
leaving any later occurrences in place". -/
theorem C8_teacher_removal_counterexample :
    teacherRemovalStep ("АБ".toList) ("АБ x АБ".toList) = (" x ".toList) ∧
    specRemoveFirstOnly ("АБ".toList) ("АБ x АБ".toList) = (" x АБ".toList) ∧
    teacherRemovalStep ("АБ".toList) ("АБ x АБ".toList) ≠
      specRemoveFirstOnly ("АБ".toList) ("АБ x АБ".toList) := by decide

/-- C8 (amended): for every text and non-empty teacher name, the
teacher-removal step removes *every* left-to-right non-overlapping
literal occurrence, not only the first: writing the text as
`p ++ teacher ++ t` with the first occurrence at position `|p|`, the
step returns `p` followed by the step's own action on `t` — i.e. it
deletes the first occurrence and keeps deleting in the remainder. -/
theorem C8_teacher_removal_removes_all (teacher p t : List Char)
    (hw : teacher ≠ [])
    (hfirst : ∀ i < p.length,
      ¬ teacher.isPrefixOf ((p ++ teacher ++ t).drop i)) :
    teacherRemovalStep teacher (p ++ teacher ++ t) =
      p ++ replAll teacher t := by
  unfold teacherRemovalStep
  rw [if_pos hw]
  exact replAll_first_split teacher p t hw hfirst

/-- Witness for the amended C8: teacher `"АБ"`, prefix `"w "`, tail
`" АБ"` (so the text is `"w АБ АБ"` and both occurrences vanish). -/
theorem C8_teacher_removal_removes_all_witness :
    ("АБ".toList : List Char) ≠ [] ∧
    (∀ i < ("w ".toList : List Char).length,
      ¬ ("АБ".toList).isPrefixOf
        ((("w ".toList) ++ ("АБ".toList) ++ (" АБ".toList)).drop i)) ∧
    teacherRemovalStep ("АБ".toList)
        (("w ".toList) ++ ("АБ".toList) ++ (" АБ".toList)) =
      ("w ".toList) ++ replAll ("АБ".toList) (" АБ".toList) :=
  ⟨by decide, by decide,
    C8_teacher_removal_removes_all ("АБ".toList) ("w ".toList) (" АБ".toList)
      (by decide) (by decide)⟩

/-- C9: evaluation at the failing input.  A record with a *malformed*
date (`"99.99.2025"`) raises `ValueError`, is skipped individually, and
its sibling is still processed — but a record whose date field is
*absent* makes `strptime(None, …)` raise `TypeError`, which escapes the
per-record `except ValueError` and is caught by the whole-fetch
`except Exception`, so the entire payload returns `[]` and the sibling
record's event is lost, contradicting the claim. -/
theorem C9_missing_date_loses_payload :
    (getScheduleJson ("group".toList) [] [c9MalformedDateItem, c9GoodItem]
      ).length = 1 ∧
    (getScheduleJson ("group".toList) [] [c9GoodItem]).length = 1 ∧
    getScheduleJson ("group".toList) [] [c9MissingDateItem, c9GoodItem] = []
    := ⟨rfl, rfl, rfl⟩

/-- C10: `from_dict` succeeds on a dict holding ISO-formatted strings
under `start_time` / `end_time`, and hands back a dictionary state in
which both entries have been overwritten in place with datetime values
(the event is built from the mutated dict); the result differs from the
dict that was passed in. -/
theorem C10_from_dict_mutates (data : PyDict) (now : PyDateTime)
    (s e : List Char) (sd ed : PyDateTime)
    (hs : dictFind? data ("start_time".toList) = some (PyValue.vStr s))
    (he : dictFind? data ("end_time".toList) = some (PyValue.vStr e))
    (hps : fromIsoformat s = some sd) (hpe : fromIsoformat e = some ed) :
    fromDict data now = some
      (eventFromDict (dictSet (dictSet data ("start_time".toList)
        (PyValue.vDt sd)) ("end_time".toList) (PyValue.vDt ed)) now,
       dictSet (dictSet data ("start_time".toList) (PyValue.vDt sd))
        ("end_time".toList) (PyValue.vDt ed)) ∧
    dictFind? (dictSet (dictSet data ("start_time".toList)
        (PyValue.vDt sd)) ("end_time".toList) (PyValue.vDt ed))
      ("start_time".toList) = some (PyValue.vDt sd) ∧
    dictFind? (dictSet (dictSet data ("start_time".toList)
        (PyValue.vDt sd)) ("end_time".toList) (PyValue.vDt ed))
      ("end_time".toList) = some (PyValue.vDt ed) ∧
    dictSet (dictSet data ("start_time".toList) (PyValue.vDt sd))
      ("end_time".toList) (PyValue.vDt ed) ≠ data := by
  have hkeys : ("start_time".toList : List Char) ≠ ("end_time".toList) := by
    decide
  have h2 : dictFind? (dictSet (dictSet data ("start_time".toList)
      (PyValue.vDt sd)) ("end_time".toList) (PyValue.vDt ed))
      ("start_time".toList) = some (PyValue.vDt sd) := by
    rw [dictFind?_set_other _ _ _ _ hkeys, dictFind?_set_self]
  refine ⟨?_, h2, dictFind?_set_self _ _ _, ?_⟩
  · unfold fromDict
    rw [hs, he]
    dsimp only
    rw [hps, hpe]
  · intro heq
    rw [heq, hs] at h2
    cases h2

/-- Witness for C10 at a concrete serialized event dictionary. -/
theorem C10_from_dict_mutates_witness :
    dictFind? c10Data ("start_time".toList) =
      some (PyValue.vStr ("2025-01-15T10:30:00+02:00".toList)) ∧
    fromIsoformat ("2025-01-15T10:30:00+02:00".toList) =
      some (kyivLocalize 2025 1 15 10 30) ∧
    (fromDict c10Data now0 = some
      (eventFromDict (dictSet (dictSet c10Data ("start_time".toList)
        (PyValue.vDt (kyivLocalize 2025 1 15 10 30))) ("end_time".toList)
        (PyValue.vDt (kyivLocalize 2025 1 15 11 50))) now0,
       dictSet (dictSet c10Data ("start_time".toList)
        (PyValue.vDt (kyivLocalize 2025 1 15 10 30))) ("end_time".toList)
        (PyValue.vDt (kyivLocalize 2025 1 15 11 50))) ∧
    dictFind? (dictSet (dictSet c10Data ("start_time".toList)
        (PyValue.vDt (kyivLocalize 2025 1 15 10 30))) ("end_time".toList)
        (PyValue.vDt (kyivLocalize 2025 1 15 11 50)))
      ("start_time".toList) =
        some (PyValue.vDt (kyivLocalize 2025 1 15 10 30)) ∧
    dictFind? (dictSet (dictSet c10Data ("start_time".toList)
        (PyValue.vDt (kyivLocalize 2025 1 15 10 30))) ("end_time".toList)
        (PyValue.vDt (kyivLocalize 2025 1 15 11 50)))
      ("end_time".toList) =
        some (PyValue.vDt (kyivLocalize 2025 1 15 11 50)) ∧
    dictSet (dictSet c10Data ("start_time".toList)
        (PyValue.vDt (kyivLocalize 2025 1 15 10 30))) ("end_time".toList)
        (PyValue.vDt (kyivLocalize 2025 1 15 11 50)) ≠ c10Data) :=
  ⟨by decide, by decide,
    C10_from_dict_mutates c10Data now0
      ("2025-01-15T10:30:00+02:00".toList)
      ("2025-01-15T11:50:00+02:00".toList)
      (kyivLocalize 2025 1 15 10 30) (kyivLocalize 2025 1 15 11 50)
      (by decide) (by decide) (by decide) (by decide)⟩
